import Mathlib

set_option maxHeartbeats 1000000

/-!
Verification of the contact manager in `src/homework_12.py`.

Shallow embedding conventions:
* Python strings are `PyStr := List Char`; `lit s` is the character list of a
  Lean string literal.
* Python exceptions are values of `PyError`, fallible code returns
  `Except PyError _`.
* `datetime.now()` is passed explicitly where the source reads the clock.
* Python built-in character classes (`str.isalpha`, `str.isdigit`,
  `str.isspace`) are modelled over the character ranges this program works
  with: ASCII plus the Cyrillic block that appears in the command patterns.
-/

/-- Python strings, modelled as their character sequences. -/
abbrev PyStr := List Char

/-- The character data of a Lean string literal, used to write `PyStr` constants. -/
def lit (s : String) : PyStr := s.data

/-- The Python exception kinds this program raises. The `input_error` decorator
catches the first three kinds; `AttributeError` is never caught. -/
inductive PyError where
  | keyError : PyError
  | valueError : PyStr → PyError
  | indexError : PyError
  | attributeError : PyError
  deriving DecidableEq

/-- Model of `str.isdigit` at character level: an ASCII decimal digit. -/
def pyIsDigitChar (c : Char) : Bool :=
  0x30 ≤ c.toNat && c.toNat ≤ 0x39

/-- Model of `str.isalpha` at character level, for the Latin and Cyrillic ranges this
program handles (ASCII letters and the Cyrillic block U+0400 - U+04FF). -/
def pyIsAlphaChar (c : Char) : Bool :=
  (0x41 ≤ c.toNat && c.toNat ≤ 0x5A) || (0x61 ≤ c.toNat && c.toNat ≤ 0x7A) ||
    (0x400 ≤ c.toNat && c.toNat ≤ 0x4FF)

/-- Model of `str.isspace` at character level: space, tab, LF, VT, FF, CR. -/
def pyIsSpaceChar (c : Char) : Bool :=
  c.toNat = 0x20 || (0x9 ≤ c.toNat && c.toNat ≤ 0xD)

/-- The character class `[a-zA-Zа-яА-Я]` of the command patterns on lines 188,
209 and 227 (А-Я is U+0410 - U+042F, а-я is U+0430 - U+044F, one contiguous block). -/
def cmdLetter (c : Char) : Bool :=
  (0x41 ≤ c.toNat && c.toNat ≤ 0x5A) || (0x61 ≤ c.toNat && c.toNat ≤ 0x7A) ||
    (0x410 ≤ c.toNat && c.toNat ≤ 0x44F)

/-- Case folding used to model `re.IGNORECASE` on line 264: ASCII and Cyrillic
capitals map to the corresponding small letters. -/
def pyToLower (c : Char) : Char :=
  if (0x41 ≤ c.toNat && c.toNat ≤ 0x5A) || (0x410 ≤ c.toNat && c.toNat ≤ 0x42F) then
    Char.ofNat (c.toNat + 32)
  else c

/-- Python `str.isdigit`: non-empty and all digits. -/
def pyStrIsDigit (s : PyStr) : Bool :=
  !s.isEmpty && s.all pyIsDigitChar

/-- Python `str.isalpha`: non-empty and all alphabetic. -/
def pyStrIsAlpha (s : PyStr) : Bool :=
  !s.isEmpty && s.all pyIsAlphaChar

/-- Python `str.isalnum`: non-empty and all alphanumeric. -/
def pyStrIsAlnum (s : PyStr) : Bool :=
  !s.isEmpty && s.all (fun c => pyIsAlphaChar c || pyIsDigitChar c)

/-- Does `needle` occur at the start of `hay`? -/
def startsWithL (needle hay : PyStr) : Bool :=
  match needle, hay with
  | [], _ => true
  | _ :: _, [] => false
  | a :: t1, b :: t2 => a == b && startsWithL t1 t2

/-- Python substring containment `needle in hay`. -/
def containsSub (needle hay : PyStr) : Bool :=
  startsWithL needle hay ||
    match hay with
    | [] => false
    | _ :: t => containsSub needle t

/-- Model of `command.split()`: split on whitespace runs, dropping empty pieces
(helper with an accumulator of the current word, reversed). -/
def pySplitAux : PyStr → PyStr → List PyStr
  | [], acc => if acc.isEmpty then [] else [acc.reverse]
  | c :: rest, acc =>
    if pyIsSpaceChar c then
      if acc.isEmpty then pySplitAux rest [] else acc.reverse :: pySplitAux rest []
    else pySplitAux rest (c :: acc)

/-- Model of `command.split()` with no arguments. -/
def pySplit (s : PyStr) : List PyStr := pySplitAux s []

/-- Split on the dash character, keeping empty pieces (helper for the date check). -/
def splitDashAux : PyStr → PyStr → List PyStr
  | [], acc => [acc.reverse]
  | c :: rest, acc =>
    if c == '-' then acc.reverse :: splitDashAux rest []
    else splitDashAux rest (c :: acc)

/-- Split a string on dashes, as `%Y-%m-%d` parsing does. -/
def splitDash (s : PyStr) : List PyStr := splitDashAux s []

/-- Numeric value of a digit string. -/
def toNatDigits (s : PyStr) : Nat :=
  s.foldl (fun acc c => 10 * acc + (c.toNat - 0x30)) 0

/-- Gregorian leap-year rule, as `datetime` uses. -/
def isLeapYear (y : Nat) : Bool :=
  y % 4 = 0 && (y % 100 ≠ 0 || y % 400 = 0)

/-- Length of a month in the given year. -/
def daysInMonth (y m : Nat) : Nat :=
  if m = 2 then (if isLeapYear y then 29 else 28)
  else if m = 4 || m = 6 || m = 9 || m = 11 then 30
  else 31

/-- Success of `datetime.strptime(value, "%Y-%m-%d")` (line 51): three dash
separated digit fields, a year of at most four digits, a real month and a real
day of that month. -/
def dateValid (value : PyStr) : Bool :=
  match splitDash value with
  | [y, m, d] =>
    !y.isEmpty && y.all pyIsDigitChar && decide (y.length ≤ 4) &&
      !m.isEmpty && m.all pyIsDigitChar &&
      !d.isEmpty && d.all pyIsDigitChar &&
      decide (1 ≤ toNatDigits y) &&
      decide (1 ≤ toNatDigits m) && decide (toNatDigits m ≤ 12) &&
      decide (1 ≤ toNatDigits d) &&
      decide (toNatDigits d ≤ daysInMonth (toNatDigits y) (toNatDigits m))
  | _ => false

/-- Embeds `Name.is_valid` (lines 30-36) plus `Field.__init__` (lines 7-11): every
character must be alphabetic or whitespace, otherwise the generic
`ValueError("Invalid value")` is raised; the raw string is stored. -/
def Name.init (value : PyStr) : Except PyError PyStr :=
  if value.all (fun c => pyIsAlphaChar c || pyIsSpaceChar c) then .ok value
  else .error (.valueError (lit "Invalid value"))

/-- The condition under which `Phone.is_valid` (lines 39-44) accepts a value:
all digits and at least 10 characters long. -/
def pyPhoneValid (value : PyStr) : Bool :=
  pyStrIsDigit value && decide (10 ≤ value.length)

/-- Embeds `Phone.is_valid`: it raises `ValueError("Invalid phone number format")` when
`not value.isdigit() or len(value) < 10`; otherwise `Field.__init__` stores
the string. -/
def Phone.init (value : PyStr) : Except PyError PyStr :=
  if pyStrIsDigit value = false ∨ value.length < 10 then
    .error (.valueError (lit "Invalid phone number format"))
  else .ok value

/-- Embeds `Birthday.is_valid` (lines 47-54): the value must parse with
`strptime("%Y-%m-%d")`, else a `ValueError` whose message starts with
"Wrong date format" is raised; the raw string (not the parsed date) is stored. -/
def Birthday.init (value : PyStr) : Except PyError PyStr :=
  if dateValid value then .ok value
  else .error (.valueError (lit "Wrong date format"))

/-- One contact (lines 57-116): stored name text, optional stored birthday
text and the list of stored phone strings. -/
structure Record where
  name : PyStr
  birthday : Option PyStr
  phones : List PyStr
  deriving DecidableEq

/-- Embeds `Record.__init__` (lines 57-61): validates the name, wraps the birthday
in `Birthday` only when it is truthy (both `None` and the empty string are
falsy), and starts with an empty phone list. -/
def Record.init (name : PyStr) (birthday : Option PyStr) : Except PyError Record := do
  let n ← Name.init name
  match birthday with
  | some b =>
    if b.isEmpty then pure ⟨n, none, []⟩
    else do
      let bv ← Birthday.init b
      pure ⟨n, some bv, []⟩
  | none => pure ⟨n, none, []⟩

/-- Embeds `Record.add_phone` (lines 63-65): validate through `Phone`, then append. -/
def Record.add_phone (r : Record) (phone : PyStr) : Except PyError Record := do
  let new_number ← Phone.init phone
  pure ⟨r.name, r.birthday, r.phones ++ [new_number]⟩

/-- Embeds `Record.remove_phone` (lines 67-69): take the first phone whose value
equals the argument (an `IndexError` from `[0]` when none matches) and
`list.remove` it, which deletes that first occurrence. -/
def Record.remove_phone (r : Record) (phone : PyStr) : Except PyError Record :=
  match r.phones.filter (fun p => p == phone) with
  | [] => .error .indexError
  | p :: _ => .ok ⟨r.name, r.birthday, r.phones.erase p⟩

/-- Replace the first list entry equal to `old` by `new`; `none` when no entry
matches. -/
def replaceFirst (phones : List PyStr) (old new : PyStr) : Option (List PyStr) :=
  match phones with
  | [] => none
  | p :: rest =>
    if p == old then some (new :: rest)
    else (replaceFirst rest old new).map (fun ps => p :: ps)

/-- Embeds `Record.edit_phone` (lines 71-84): first re-checks the new number with the
same condition as `Phone.is_valid`, then overwrites the value of the first
phone equal to `old_number` (the `value` setter re-validates, which cannot
fail after the check just made); raises `ValueError` when no phone matches.
The source interpolates the old number into that message. -/
def Record.edit_phone (r : Record) (old_number new_number : PyStr) : Except PyError Record :=
  if pyStrIsDigit new_number = false ∨ new_number.length < 10 then
    .error (.valueError (lit "Invalid phone number format"))
  else
    match replaceFirst r.phones old_number new_number with
    | some ps => .ok ⟨r.name, r.birthday, ps⟩
    | none => .error (.valueError (lit "Phone number not found in the record."))

/-- Embeds `Record.find_phone` (lines 86-90). -/
def Record.find_phone (r : Record) (phone : PyStr) : Option PyStr :=
  r.phones.find? (fun p => p == phone)

/-- The date part of `datetime.now()`. -/
structure PyDateTime where
  year : Nat
  month : Nat
  day : Nat
  deriving DecidableEq

/-- Day number of a proleptic Gregorian date, for `datetime` subtraction. -/
def toOrdinal (y m d : Nat) : Nat :=
  365 * y + y / 4 - y / 100 + y / 400 +
    (List.range (m - 1)).foldl (fun acc i => acc + daysInMonth y (i + 1)) 0 + d

/-- Attribute lookup `.month` on the stored birthday value (line 103).
`Field.__init__` stores the raw unparsed string, so the lookup happens on a
Python `str`, which has no `month` attribute: it raises `AttributeError`. -/
def strAttrMonth (_ : PyStr) : Except PyError Nat := .error .attributeError

/-- Attribute lookup `.day` on the stored birthday value (line 104); fails for
the same reason as `strAttrMonth`. -/
def strAttrDay (_ : PyStr) : Except PyError Nat := .error .attributeError

/-- Embeds `Record.days_to_birthday` (lines 98-116), with `datetime.now()` passed as
`now` (time of day dropped: the arithmetic below is unreachable, because the
`.month` lookup on the stored birthday string raises first). -/
def Record.days_to_birthday (r : Record) (now : PyDateTime) : Except PyError (Option Int) :=
  match r.birthday with
  | some b => do
    let m ← strAttrMonth b
    let d ← strAttrDay b
    let nowOrd := toOrdinal now.year now.month now.day
    let thisYear := toOrdinal now.year m d
    let difference : Int := (thisYear : Int) - (nowOrd : Int)
    let difference : Int :=
      if thisYear < nowOrd then (toOrdinal (now.year + 1) m d : Int) - (nowOrd : Int)
      else difference
    pure (some difference)
  | none => pure none

/-- The `AddressBook` (lines 119-166): a `UserDict`, i.e. an insertion ordered
mapping from contact-name string to `Record`, modelled as its association
list. -/
structure AddressBook where
  data : List (PyStr × Record)
  deriving DecidableEq

/-- Embeds `self.data.values()` in iteration order. -/
def AddressBook.values (book : AddressBook) : List Record :=
  book.data.map (fun kv => kv.2)

/-- Embeds `AddressBook.add_record` (lines 121-125): insert under `record.name.value`
when that key is absent, else raise `ValueError`. -/
def AddressBook.add_record (book : AddressBook) (record : Record) : Except PyError AddressBook :=
  if book.data.all (fun kv => !(kv.1 == record.name)) then
    .ok ⟨book.data ++ [(record.name, record)]⟩
  else .error (.valueError (lit "The contact with this name already exists"))

/-- Embeds `AddressBook.find` (lines 127-128): `self.data.get(name)`. -/
def AddressBook.find (book : AddressBook) (name : PyStr) : Option Record :=
  (book.data.find? (fun kv => kv.1 == name)).map (fun kv => kv.2)

/-- Embeds `AddressBook.delete` (lines 130-132): remove the entry when present
(dict keys are unique, so at most one entry matches). -/
def AddressBook.delete (book : AddressBook) (name : PyStr) : AddressBook :=
  ⟨book.data.eraseP (fun kv => kv.1 == name)⟩

/-- In-place mutation of the record stored under `name`: Python record methods
mutate the object held by the dict, so the key and the iteration order are
unchanged and only the stored record value is replaced. -/
def AddressBook.setRecord (book : AddressBook) (name : PyStr) (r : Record) : AddressBook :=
  ⟨book.data.map (fun kv => if kv.1 == name then (kv.1, r) else kv)⟩

/-- Python slice `values[counter : counter + n]` for natural bounds. -/
def sliceFrom (values : List Record) (n counter : Nat) : List Record :=
  (values.drop counter).take n

/-- The loop of `AddressBook.iterator` (lines 134-141) for a positive page
size: while `counter < len(self.data)` it yields the slice
`values[counter:counter+n]` and then advances the counter by `n`. The guard
`0 < n` makes the recursion well founded; for `record_number = 0` the source
loop never advances the counter (see `iterCounterAfter`). -/
def iteratorChunks (values : List Record) (n : Nat) (counter : Nat) : List (List Record) :=
  if _h : counter < values.length ∧ 0 < n then
    sliceFrom values n counter :: iteratorChunks values n (counter + n)
  else []
termination_by values.length - counter
decreasing_by omega

/-- The loop counter of `AddressBook.iterator` after `k` iterations: it starts
at 0 and each iteration executes `counter += record_number`. -/
def iterCounterAfter (n : Nat) : Nat → Nat
  | 0 => 0
  | k + 1 => iterCounterAfter n k + n

/-- The generator loop of `iterator` is finite exactly when some number of
iterations drives the counter to `len(self.data)` or beyond. -/
def IteratorTerminates (book : AddressBook) (n : Nat) : Prop :=
  ∃ k, ¬ iterCounterAfter n k < book.data.length

/-- One row of `address_book.csv`: columns `contact name`, `phone`,
`birthday`. -/
structure Row where
  contact_name : PyStr
  phone : PyStr
  birthday : PyStr
  deriving DecidableEq

/-- Embeds `"; ".join(...)` over the phone values. -/
def joinPhones : List PyStr → PyStr
  | [] => []
  | [p] => p
  | p :: q :: rest => p ++ lit "; " ++ joinPhones (q :: rest)

/-- Embeds `address_book_writer` (lines 143-155): one row per record in order, the
phones joined by semicolon-space into a single field, the birthday column the
stored string or empty. -/
def AddressBook.address_book_writer (book : AddressBook) : List Row :=
  book.values.map (fun record =>
    ⟨record.name, joinPhones record.phones,
      match record.birthday with | some b => b | none => []⟩)

/-- Embeds `address_book_reader` (lines 157-166): for each row in turn it constructs
`Record(name, birthday)`, adds the whole phone column as one phone with
`add_phone`, and stores the record with `add_record`; the method catches
nothing, so the first exception aborts the load. -/
def AddressBook.address_book_reader (book : AddressBook) (rows : List Row) : Except PyError AddressBook :=
  List.foldlM (fun bk row => do
    let record ← Record.init row.contact_name (some row.birthday)
    let record ← Record.add_phone record row.phone
    AddressBook.add_record bk record) book rows

/-- The reply text the `input_error` decorator (lines 169-179) produces for
each caught exception kind; `AttributeError` is not caught. -/
def input_error_msg : PyError → Option PyStr
  | .keyError => some (lit "Enter user name")
  | .valueError _ => some (lit "The contact with this name already exists")
  | .indexError => some (lit "Contact not found")
  | .attributeError => none

/-- The `input_error` decorator: a caught exception becomes an ordinary reply,
injected into the result type of the wrapped handler by `recover`; an uncaught
exception propagates. -/
def input_error {α : Type} (recover : PyStr → α) (body : Except PyError α) : Except PyError α :=
  match body with
  | .error e =>
    match input_error_msg e with
    | some msg => .ok (recover msg)
    | none => .error e
  | .ok a => .ok a

/-- Fullmatch of the pattern `^<kw> [a-zA-Zа-яА-Я]{2,} \d{10,}$` (lines 188
and 209), returning the second and third `command.split()` fields that the
handlers then use. The letter class contains no space and no digit, so the
greedy regex match is exactly: the literal keyword and a space, a maximal
letter run of length at least 2, one space, then only digits (at least 10) up
to the end of the string. -/
def matchCmd (kw : PyStr) (cmd : PyStr) : Option (PyStr × PyStr) :=
  if cmd.take (kw.length + 1) = kw ++ [' '] then
    let rest := cmd.drop (kw.length + 1)
    let name := rest.takeWhile cmdLetter
    let afterName := rest.drop name.length
    if afterName.take 1 = [' '] then
      let phone := afterName.drop 1
      if 2 ≤ name.length ∧ 10 ≤ phone.length ∧ phone.all pyIsDigitChar then
        some (name, phone)
      else none
    else none
  else none

/-- Fullmatch of `^<kw> [a-zA-Zа-яА-Я]{2,}$` (line 227). -/
def matchNameCmd (kw : PyStr) (cmd : PyStr) : Option PyStr :=
  if cmd.take (kw.length + 1) = kw ++ [' '] then
    let rest := cmd.drop (kw.length + 1)
    if 2 ≤ rest.length ∧ rest.all cmdLetter then some rest else none
  else none

/-- Python `==` between a `str` and a `list` object is always false, so the
membership test `phone not in [record.phones for record in ...]` on line 194
compares the phone string against whole phone lists and never succeeds. -/
def strEqPhoneList (_ : PyStr) (_ : List PyStr) : Bool := false

/-- The confirmation `add_handler` returns whenever the command matches the
pattern, whether or not anything was stored (lines 198-201). -/
def addedMsg (name phone : PyStr) : PyStr :=
  lit "Contact " ++ name ++ lit " with phone " ++ phone ++
    lit " has been added to the contacts"

/-- Body of `add_handler` (lines 187-204): on a pattern match, the record is
created and stored only when the name is a new key (the phone membership test
on line 194 is vacuous, see `strEqPhoneList`), and the added-confirmation is
returned in either case; otherwise the usage message. -/
def add_body (book : AddressBook) (command : PyStr) : Except PyError (AddressBook × PyStr) :=
  match matchCmd (lit "add") command with
  | some (name, phone) => do
    let book2 ←
      if book.data.all (fun kv => !(kv.1 == name)) ∧
          (book.values.map (fun record => record.phones)).all
            (fun ps => !strEqPhoneList phone ps) then do
        let record ← Record.init name none
        let record ← Record.add_phone record phone
        AddressBook.add_record book record
      else pure book
    pure (book2, addedMsg name phone)
  | none =>
    pure (book, lit "Invalid command. Please follow the format: add name(at least 2 characters) phone(at least 10 digits)")

/-- Embeds `add_handler` with its `input_error` wrapper; on a caught exception the
book is returned as the handler left it (no mutation precedes a raise here). -/
def add_handler (book : AddressBook) (command : PyStr) : Except PyError (AddressBook × PyStr) :=
  input_error (fun msg => (book, msg)) (add_body book command)

/-- Python list indexing, raising `IndexError` out of range. -/
def pyIndexGet (l : List PyStr) (i : Nat) : Except PyError PyStr :=
  match l[i]? with
  | some x => .ok x
  | none => .error .indexError

/-- Body of `change_handler` (lines 208-222): on a pattern match, look the
name up; when found, `record.edit_phone(record.phones[0].value, new_phone)`
replaces the first phone (an empty phone list raises `IndexError` at the
`[0]`); when not found, `IndexError` is raised deliberately. -/
def change_body (book : AddressBook) (command : PyStr) : Except PyError (AddressBook × PyStr) :=
  match matchCmd (lit "change") command with
  | some (name, new_phone) =>
    match book.find name with
    | some record => do
      let first ← pyIndexGet record.phones 0
      let record2 ← Record.edit_phone record first new_phone
      pure (book.setRecord name record2,
        lit "Phone has been changed for " ++ name ++ lit " to " ++ new_phone)
    | none => .error .indexError
  | none =>
    pure (book, lit "Invalid command. Please follow the format: change name(at least 2 characters) phone(at least 10 digits)")

/-- Embeds `change_handler` with its `input_error` wrapper. -/
def change_handler (book : AddressBook) (command : PyStr) : Except PyError (AddressBook × PyStr) :=
  input_error (fun msg => (book, msg)) (change_body book command)

/-- Body of `phone_handler` (lines 226-240). -/
def phone_body (book : AddressBook) (command : PyStr) : Except PyError PyStr :=
  match matchNameCmd (lit "phone") command with
  | some name =>
    match book.find name with
    | some record => do
      let first ← pyIndexGet record.phones 0
      pure (lit "The phone number for " ++ name ++ lit " is " ++ first)
    | none => .error .indexError
  | none =>
    pure (lit "Invalid command. Please follow the format: phone name(at least 2 characters)")

/-- Embeds `phone_handler` with its `input_error` wrapper. -/
def phone_handler (book : AddressBook) (command : PyStr) : Except PyError PyStr :=
  input_error id (phone_body book command)

/-- Embeds `hello_handler` (lines 182-184). -/
def hello_handler : Except PyError PyStr :=
  input_error id (pure (lit "How can I help you?"))

/-- Embeds `show_all_handler` (lines 242-251). -/
def show_all_handler (book : AddressBook) : Except PyError PyStr :=
  input_error id (pure (
    if book.data.isEmpty then lit "No contacts found"
    else book.values.foldl (fun acc record =>
      acc ++ lit "Contact name: " ++ record.name ++ lit ", phones: " ++
        joinPhones record.phones ++ lit "\n") []))

/-- Embeds `exit_handler` (lines 274-276). -/
def exit_handler : Except PyError PyStr :=
  input_error id (pure (lit "Good bye!"))

/-- A Python handler result: the search handler returns a `list` of names on
its normal path but a `str` on its usage path, so its result type is this
union. -/
inductive PyValue where
  | str : PyStr → PyValue
  | strList : List PyStr → PyValue
  deriving DecidableEq

/-- Case-insensitive match of `re.compile(search_data, re.IGNORECASE)` against
a name (line 264-265): the term consists of letters only, so the regex has no
metacharacters and `re.search` is substring containment up to case. -/
def ciSearch (term target : PyStr) : Bool :=
  containsSub (term.map pyToLower) (target.map pyToLower)

/-- What one loop turn of `search_handler` (lines 262-270) appends for one
record: the name, when an alphabetic term matches the name case-insensitively;
or one copy of the name per phone containing a numeric term as a substring. -/
def searchRecordHits (search_data : PyStr) (record : Record) : List PyStr :=
  if pyStrIsAlpha search_data then
    if ciSearch search_data record.name then [record.name] else []
  else if pyStrIsDigit search_data then
    (record.phones.filter (fun p => containsSub search_data p)).map
      (fun _ => record.name)
  else []

/-- Body of `search_handler` (lines 255-271): reject unless the command splits
into exactly two words with an alphanumeric second word (a `str` reply), else
collect `user_list` over all records and return it - a Python `list`, not a
display string. -/
def search_body (book : AddressBook) (command : PyStr) : Except PyError PyValue :=
  let splitted := pySplit command
  if splitted.length ≠ 2 ∨ pyStrIsAlnum (splitted.getD 1 []) = false then
    pure (.str (lit "Invalid command. Please follow the format: search letter or digit"))
  else
    let search_data := splitted.getD 1 []
    pure (.strList (book.values.foldl
      (fun acc record => acc ++ searchRecordHits search_data record) []))

/-- Embeds `search_handler` with its `input_error` wrapper. -/
def search_handler (book : AddressBook) (command : PyStr) : Except PyError PyValue :=
  input_error PyValue.str (search_body book command)

/-- The Record/AddressBook mutations named by the invariant claim. The record
operations act in place on the record stored under the given name; with no
such record there is no object to call the method on, so the book is
untouched. -/
inductive BookOp where
  | addRecord : PyStr → Option PyStr → List PyStr → BookOp
  | deleteRecord : PyStr → BookOp
  | addPhone : PyStr → PyStr → BookOp
  | removePhone : PyStr → PyStr → BookOp
  | editPhone : PyStr → PyStr → PyStr → BookOp

/-- A record as client code obtains one: `Record(name, birthday)` followed by
`add_phone` for each phone (every constructor of a phone value validates it). -/
def buildRecord (name : PyStr) (birthday : Option PyStr) (phones : List PyStr) : Except PyError Record := do
  let r ← Record.init name birthday
  List.foldlM Record.add_phone r phones

/-- Apply one mutation to the book. -/
def applyOp (book : AddressBook) : BookOp → Except PyError AddressBook
  | .addRecord name birthday phones => do
    let r ← buildRecord name birthday phones
    AddressBook.add_record book r
  | .deleteRecord name => .ok (book.delete name)
  | .addPhone name phone =>
    match book.find name with
    | some r => do
      let r2 ← Record.add_phone r phone
      pure (book.setRecord name r2)
    | none => .ok book
  | .removePhone name phone =>
    match book.find name with
    | some r => do
      let r2 ← Record.remove_phone r phone
      pure (book.setRecord name r2)
    | none => .ok book
  | .editPhone name old new =>
    match book.find name with
    | some r => do
      let r2 ← Record.edit_phone r old new
      pure (book.setRecord name r2)
    | none => .ok book

/-- All phones stored in the record satisfy the `Phone` constraint. -/
def Record.phonesValid (r : Record) : Bool :=
  r.phones.all pyPhoneValid

/-- The data invariant of the book: every stored record sits under its own
name value and carries only valid phone strings. -/
def AddressBook.Inv (book : AddressBook) : Bool :=
  book.data.all (fun kv => kv.1 == kv.2.name && kv.2.phonesValid)

/-- The book that the first `add bob 1234567890` produces from an empty book. -/
def bookBob : AddressBook :=
  ⟨[(lit "bob", ⟨lit "bob", none, [lit "1234567890"]⟩)]⟩

/-- A one-contact book with two phones and a birthday, for the round-trip
claim. -/
def bookRT : AddressBook :=
  ⟨[(lit "ab", ⟨lit "ab", some (lit "2000-01-01"), [lit "1234567890", lit "0987654321"]⟩)]⟩

/-- A one-contact book, used as a non-empty iterator input. -/
def bookOne : AddressBook :=
  ⟨[(lit "ab", ⟨lit "ab", none, [lit "1234567890"]⟩)]⟩

theorem except_bind_ok {α β : Type} (a : α) (f : α → Except PyError β) :
    (Except.ok a >>= f) = f a := rfl

theorem except_bind_error {α β : Type} (e : PyError) (f : α → Except PyError β) :
    ((Except.error e : Except PyError α) >>= f) = .error e := rfl

theorem Name.init_valid_ok {value : PyStr}
    (h : value.all (fun c => pyIsAlphaChar c || pyIsSpaceChar c) = true) :
    Name.init value = .ok value := by
  unfold Name.init
  rw [if_pos h]

theorem Phone.init_digits_ok {value : PyStr}
    (hd : value.all pyIsDigitChar = true) (hl : 10 ≤ value.length) :
    Phone.init value = .ok value := by
  have hne : value.isEmpty = false := by
    cases value with
    | nil => simp at hl
    | cons c t => rfl
  unfold Phone.init
  rw [if_neg]
  simp [pyStrIsDigit, hne, hd]
  omega

theorem Record.init_ok_none {name : PyStr}
    (h : name.all (fun c => pyIsAlphaChar c || pyIsSpaceChar c) = true) :
    Record.init name none = .ok ⟨name, none, []⟩ := by
  unfold Record.init
  rw [Name.init_valid_ok h]
  rfl

theorem Record.add_phone_ok {r : Record} {phone : PyStr}
    (hd : phone.all pyIsDigitChar = true) (hl : 10 ≤ phone.length) :
    Record.add_phone r phone = .ok ⟨r.name, r.birthday, r.phones ++ [phone]⟩ := by
  unfold Record.add_phone
  rw [Phone.init_digits_ok hd hl]
  rfl

theorem cmdLetter_name_valid {name : PyStr} (h : name.all cmdLetter = true) :
    name.all (fun c => pyIsAlphaChar c || pyIsSpaceChar c) = true := by
  rw [List.all_eq_true] at h ⊢
  intro c hc
  have hcl := h c hc
  simp only [cmdLetter, Bool.or_eq_true, Bool.and_eq_true, decide_eq_true_eq] at hcl
  simp only [pyIsAlphaChar, pyIsSpaceChar, Bool.or_eq_true, Bool.and_eq_true, decide_eq_true_eq]
  omega

theorem matchCmd_fields {kw cmd name phone : PyStr}
    (h : matchCmd kw cmd = some (name, phone)) :
    2 ≤ name.length ∧ name.all cmdLetter = true ∧
      10 ≤ phone.length ∧ phone.all pyIsDigitChar = true := by
  simp only [matchCmd] at h
  split at h
  · split at h
    · split at h
      · rename_i hcond
        obtain ⟨h2, h10, hdig⟩ := hcond
        obtain ⟨hn, hp⟩ := Prod.mk.injEq .. ▸ Option.some.injEq .. ▸ h
        subst hn
        subst hp
        exact ⟨h2, List.all_takeWhile, h10, hdig⟩
      · exact absurd h (by simp)
    · exact absurd h (by simp)
  · exact absurd h (by simp)

/-- Claim C1 (code bug): `days_to_birthday` on any record with a birthday set
raises `AttributeError` rather than returning a day count, because `Birthday`
stores the raw string and line 103 reads `.month` from it; with no birthday it
does return the absent value `None`. -/
theorem C1_days_to_birthday_raises :
    ∃ r, Record.init (lit "ab") (some (lit "2000-01-01")) = .ok r ∧
      Record.days_to_birthday r ⟨2026, 10, 12⟩ = .error .attributeError ∧
      Record.days_to_birthday ⟨lit "ab", none, []⟩ ⟨2026, 10, 12⟩ = .ok none :=
  ⟨⟨lit "ab", some (lit "2000-01-01"), []⟩, rfl, rfl, rfl⟩

/-- Claim C10: the empty string passes `Name.is_valid` vacuously, so a record
with an empty name is constructible and addable to the book. -/
theorem C10_empty_name_accepted :
    Name.init [] = .ok [] ∧
    Record.init [] none = .ok ⟨[], none, []⟩ ∧
    AddressBook.add_record ⟨[]⟩ ⟨[], none, []⟩ = .ok ⟨[([], ⟨[], none, []⟩)]⟩ :=
  ⟨rfl, rfl, rfl⟩

/-- Claim C7: constructing a `Phone` succeeds exactly on all-digit strings of
length at least 10 and otherwise fails with the invalid-phone-format
`ValueError`. -/
theorem C7_phone_validation (s : PyStr) :
    (s.all pyIsDigitChar = true ∧ 10 ≤ s.length → Phone.init s = .ok s) ∧
    (¬ (s.all pyIsDigitChar = true ∧ 10 ≤ s.length) →
      Phone.init s = .error (.valueError (lit "Invalid phone number format"))) := by
  constructor
  · rintro ⟨hd, hl⟩
    exact Phone.init_digits_ok hd hl
  · intro h
    unfold Phone.init
    rw [if_pos]
    by_cases hall : s.all pyIsDigitChar = true
    · right
      have h10 : ¬ 10 ≤ s.length := fun hc => h ⟨hall, hc⟩
      omega
    · left
      simp [pyStrIsDigit, Bool.eq_false_iff.mpr hall]

theorem C7_witness :
    Phone.init (lit "1234567890") = .ok (lit "1234567890") ∧
    Phone.init (lit "123") = .error (.valueError (lit "Invalid phone number format")) :=
  ⟨(C7_phone_validation (lit "1234567890")).1 (by decide),
   (C7_phone_validation (lit "123")).2 (by decide)⟩

/-- Claim C8: `remove_phone` deletes the first phone equal to the argument and
keeps the rest in order; with no matching phone it raises `IndexError` (from
indexing the empty filter result) without touching the list. -/
theorem C8_remove_phone_spec (r : Record) (text : PyStr) :
    (text ∉ r.phones → Record.remove_phone r text = .error .indexError) ∧
    (∀ l1 l2, r.phones = l1 ++ text :: l2 → text ∉ l1 →
      Record.remove_phone r text = .ok ⟨r.name, r.birthday, l1 ++ l2⟩) := by
  constructor
  · intro h
    have hf : r.phones.filter (fun p => p == text) = [] := by
      rw [List.filter_eq_nil_iff]
      intro a ha hp
      have : a = text := by simpa using hp
      subst this
      exact h ha
    simp [Record.remove_phone, hf]
  · intro l1 l2 hsplit hnot
    have h1 : l1.filter (fun p => p == text) = [] := by
      rw [List.filter_eq_nil_iff]
      intro a ha hp
      have : a = text := by simpa using hp
      subst this
      exact hnot ha
    have hf : r.phones.filter (fun p => p == text) =
        text :: l2.filter (fun p => p == text) := by
      rw [hsplit, List.filter_append, h1]
      simp
    simp only [Record.remove_phone, hf]
    rw [hsplit, List.erase_append_right _ hnot, List.erase_cons_head]

theorem C8_witness :
    Record.remove_phone ⟨lit "ab", none, [lit "1234567890", lit "0987654321"]⟩ (lit "0987654321") =
      .ok ⟨lit "ab", none, [lit "1234567890"]⟩ ∧
    Record.remove_phone ⟨lit "ab", none, []⟩ (lit "0987654321") = .error .indexError :=
  ⟨(C8_remove_phone_spec ⟨lit "ab", none, [lit "1234567890", lit "0987654321"]⟩ (lit "0987654321")).2
      [lit "1234567890"] [] rfl (by decide),
   (C8_remove_phone_spec ⟨lit "ab", none, []⟩ (lit "0987654321")).1 (by decide)⟩


theorem iteratorChunks_flatten {values : List Record} {n : Nat} (hn : 0 < n) :
    ∀ fuel counter, values.length - counter ≤ fuel →
      (iteratorChunks values n counter).flatten = values.drop counter := by
  intro fuel
  induction fuel with
  | zero =>
    intro counter hle
    rw [iteratorChunks, dif_neg (by omega)]
    rw [List.drop_eq_nil_of_le (by omega)]
    rfl
  | succ m ih =>
    intro counter hle
    by_cases hc : counter < values.length
    · rw [iteratorChunks, dif_pos ⟨hc, hn⟩]
      rw [List.flatten_cons, ih (counter + n) (by omega), sliceFrom]
      rw [show values.drop (counter + n) = (values.drop counter).drop n from
        (List.drop_drop n counter values).symm]
      exact List.take_append_drop n (values.drop counter)
    · rw [iteratorChunks, dif_neg (by omega)]
      rw [List.drop_eq_nil_of_le (by omega)]
      rfl

theorem iteratorChunks_sizes {values : List Record} {n : Nat} :
    ∀ fuel counter, values.length - counter ≤ fuel →
      ∀ s ∈ iteratorChunks values n counter, s.length ≤ n := by
  intro fuel
  induction fuel with
  | zero =>
    intro counter hle s hs
    rw [iteratorChunks, dif_neg (by omega)] at hs
    simp at hs
  | succ m ih =>
    intro counter hle s hs
    by_cases hc : counter < values.length ∧ 0 < n
    · rw [iteratorChunks, dif_pos hc] at hs
      rcases List.mem_cons.mp hs with h | h
      · subst h
        exact le_trans (List.length_take_le n _) le_rfl
      · exact ih (counter + n) (by omega) s h
    · rw [iteratorChunks, dif_neg hc] at hs
      simp at hs

/-- Claim C6 counterexample: on a non-empty book the `iterator` loop with
`record_number = 0` never advances its counter, so no iteration count
finishes it - the sequence of slices is not finite. -/
theorem C6_counterexample : ¬ IteratorTerminates bookOne 0 := by
  rintro ⟨k, hk⟩
  apply hk
  have hzero : ∀ j, iterCounterAfter 0 j = 0 := by
    intro j
    induction j with
    | zero => rfl
    | succ j ih => simp [iterCounterAfter, ih]
  rw [hzero k]
  decide

/-- Claim C6 as amended: for every positive page size the loop is finite and
produces slices of at most `page_size` records whose concatenation is exactly
the values in order. -/
theorem C6_iterator_pages (book : AddressBook) (n : Nat) (hn : 0 < n) :
    (iteratorChunks book.values n 0).flatten = book.values ∧
    ∀ s ∈ iteratorChunks book.values n 0, s.length ≤ n := by
  constructor
  · rw [iteratorChunks_flatten hn book.values.length 0 (by omega)]
    rfl
  · exact iteratorChunks_sizes book.values.length 0 (by omega)

theorem C6_witness :
    (iteratorChunks bookOne.values 2 0).flatten = bookOne.values ∧
    ∀ s ∈ iteratorChunks bookOne.values 2 0, s.length ≤ 2 :=
  C6_iterator_pages bookOne 2 (by decide)

/-- Claim C3 counterexample: after a successful `add bob 1234567890`, the same
command again returns the added-confirmation once more (while storing
nothing), not the duplicate-contact message. -/
theorem C3_counterexample :
    add_handler ⟨[]⟩ (lit "add bob 1234567890") =
      .ok (bookBob, addedMsg (lit "bob") (lit "1234567890")) ∧
    add_handler bookBob (lit "add bob 1234567890") =
      .ok (bookBob, addedMsg (lit "bob") (lit "1234567890")) ∧
    addedMsg (lit "bob") (lit "1234567890") ≠
      lit "The contact with this name already exists" :=
  ⟨rfl, rfl, by decide⟩

/-- Claim C3 as amended: a well-formed `add` with a fresh name stores the
record with that one phone and returns the confirmation; the second identical
call leaves the book unchanged and returns the same confirmation (the
duplicate-contact message is never produced, because the name guard skips the
`add_record` call that would raise it). -/
theorem C3_add_twice (book : AddressBook) (command name phone : PyStr)
    (hm : matchCmd (lit "add") command = some (name, phone))
    (hfresh : book.data.all (fun kv => !(kv.1 == name)) = true) :
    add_handler book command =
      .ok (⟨book.data ++ [(name, ⟨name, none, [phone]⟩)]⟩, addedMsg name phone) ∧
    add_handler ⟨book.data ++ [(name, ⟨name, none, [phone]⟩)]⟩ command =
      .ok (⟨book.data ++ [(name, ⟨name, none, [phone]⟩)]⟩, addedMsg name phone) := by
  obtain ⟨hn2, hnl, hp10, hpd⟩ := matchCmd_fields hm
  constructor
  · unfold add_handler add_body
    rw [hm]
    dsimp only
    rw [if_pos ⟨hfresh, by simp [strEqPhoneList]⟩]
    rw [Record.init_ok_none (cmdLetter_name_valid hnl), except_bind_ok]
    rw [Record.add_phone_ok hpd hp10, except_bind_ok]
    unfold AddressBook.add_record
    rw [if_pos hfresh]
    rfl
  · unfold add_handler add_body
    rw [hm]
    dsimp only
    rw [if_neg]
    · rfl
    · intro hcon
      have hfalse : ((book.data ++ [(name, (⟨name, none, [phone]⟩ : Record))]).all
          (fun kv => !(kv.1 == name))) = false := by
        simp
      rw [hfalse] at hcon
      exact absurd hcon.1 (by simp)

theorem C3_witness :
    add_handler ⟨[]⟩ (lit "add bob 1234567890") =
      .ok (⟨[(lit "bob", ⟨lit "bob", none, [lit "1234567890"]⟩)]⟩,
        addedMsg (lit "bob") (lit "1234567890")) ∧
    add_handler ⟨[(lit "bob", ⟨lit "bob", none, [lit "1234567890"]⟩)]⟩
        (lit "add bob 1234567890") =
      .ok (⟨[(lit "bob", ⟨lit "bob", none, [lit "1234567890"]⟩)]⟩,
        addedMsg (lit "bob") (lit "1234567890")) := by
  simpa using C3_add_twice ⟨[]⟩ (lit "add bob 1234567890") (lit "bob")
    (lit "1234567890") (by decide) (by decide)

/-- Claim C2 counterexample: writing a one-contact book with two phones and a
birthday and reading the file back into an empty book does not produce a
record at all - the reload raises the invalid-phone-format `ValueError`. -/
theorem C2_counterexample :
    AddressBook.address_book_reader ⟨[]⟩ (AddressBook.address_book_writer bookRT) =
      .error (.valueError (lit "Invalid phone number format")) := rfl

theorem Record.init_ok_some {name b : PyStr}
    (hname : name.all (fun c => pyIsAlphaChar c || pyIsSpaceChar c) = true)
    (hbne : b.isEmpty = false) (hb : dateValid b = true) :
    Record.init name (some b) = .ok ⟨name, some b, []⟩ := by
  unfold Record.init
  rw [Name.init_valid_ok hname, except_bind_ok]
  dsimp only
  rw [if_neg (by simp [hbne])]
  unfold Birthday.init
  rw [if_pos hb, except_bind_ok]
  rfl

theorem Phone.init_joined_error (p1 p2 : PyStr) :
    Phone.init (p1 ++ lit "; " ++ p2) =
      .error (.valueError (lit "Invalid phone number format")) := by
  unfold Phone.init
  rw [if_pos]
  left
  have hsemi : pyIsDigitChar ';' = false := by decide
  have : lit "; " = ';' :: [' '] := rfl
  simp [pyStrIsDigit, this, hsemi]

/-- Claim C2 as amended: for any one-contact book whose record holds a valid
name, a valid birthday and two phones, writing and then reading back into an
empty book fails with the invalid-phone-format `ValueError` - the joined
two-phone field is re-validated as a single `Phone` and rejected, so nothing
round-trips. -/
theorem C2_roundtrip_error (name b p1 p2 : PyStr)
    (hname : name.all (fun c => pyIsAlphaChar c || pyIsSpaceChar c) = true)
    (hb : dateValid b = true) :
    AddressBook.address_book_reader ⟨[]⟩
        (AddressBook.address_book_writer ⟨[(name, ⟨name, some b, [p1, p2]⟩)]⟩) =
      .error (.valueError (lit "Invalid phone number format")) := by
  have hbne : b.isEmpty = false := by
    cases b with
    | nil => exact absurd hb (by decide)
    | cons c t => rfl
  have hrow : AddressBook.address_book_writer ⟨[(name, ⟨name, some b, [p1, p2]⟩)]⟩ =
      [⟨name, p1 ++ lit "; " ++ p2, b⟩] := rfl
  rw [hrow]
  unfold AddressBook.address_book_reader
  simp only [List.foldlM]
  rw [Record.init_ok_some hname hbne hb, except_bind_ok]
  unfold Record.add_phone
  rw [Phone.init_joined_error p1 p2]
  rfl

theorem C2_witness :
    AddressBook.address_book_reader ⟨[]⟩
        (AddressBook.address_book_writer
          ⟨[(lit "ab", ⟨lit "ab", some (lit "2000-01-01"),
            [lit "1234567890", lit "0987654321"]⟩)]⟩) =
      .error (.valueError (lit "Invalid phone number format")) :=
  C2_roundtrip_error (lit "ab") (lit "2000-01-01") (lit "1234567890")
    (lit "0987654321") (by decide) (by decide)

theorem Record.edit_phone_head {r : Record} {p new : PyStr} {rest : List PyStr}
    (hp : r.phones = p :: rest)
    (hd : new.all pyIsDigitChar = true) (hl : 10 ≤ new.length) :
    Record.edit_phone r p new = .ok ⟨r.name, r.birthday, new :: rest⟩ := by
  have hne : new.isEmpty = false := by
    cases new with
    | nil => simp at hl
    | cons c t => rfl
  unfold Record.edit_phone
  rw [if_neg (by simp [pyStrIsDigit, hne, hd]; omega)]
  rw [hp]
  unfold replaceFirst
  simp

/-- Claim C5: a well-formed `change` command on an existing contact replaces
the first stored phone and returns the confirmation; on an unknown name the
deliberately raised `IndexError` is turned into the not-found message. -/
theorem C5_change_handler (book : AddressBook) (command name new_phone : PyStr) (r : Record)
    (hm : matchCmd (lit "change") command = some (name, new_phone)) :
    (book.find name = some r → ∀ p rest, r.phones = p :: rest →
      change_handler book command =
        .ok (book.setRecord name ⟨r.name, r.birthday, new_phone :: rest⟩,
          lit "Phone has been changed for " ++ name ++ lit " to " ++ new_phone)) ∧
    (book.find name = none →
      change_handler book command = .ok (book, lit "Contact not found")) := by
  obtain ⟨hn2, hnl, hp10, hpd⟩ := matchCmd_fields hm
  constructor
  · intro hfind p rest hp
    unfold change_handler change_body
    rw [hm]
    dsimp only
    rw [hfind]
    dsimp only
    rw [show pyIndexGet r.phones 0 = .ok p from by rw [hp]; simp [pyIndexGet], except_bind_ok]
    rw [Record.edit_phone_head hp hpd hp10, except_bind_ok]
    rfl
  · intro hfind
    unfold change_handler change_body
    rw [hm]
    dsimp only
    rw [hfind]
    rfl

theorem C5_witness :
    change_handler bookOne (lit "change ab 9876543210") =
      .ok (AddressBook.setRecord bookOne (lit "ab") ⟨lit "ab", none, [lit "9876543210"]⟩,
        lit "Phone has been changed for " ++ lit "ab" ++ lit " to " ++ lit "9876543210") ∧
    change_handler ⟨[]⟩ (lit "change ab 9876543210") =
      .ok (⟨[]⟩, lit "Contact not found") := by
  constructor
  · exact (C5_change_handler bookOne (lit "change ab 9876543210") (lit "ab")
      (lit "9876543210") ⟨lit "ab", none, [lit "1234567890"]⟩ (by decide)).1
      rfl (lit "1234567890") [] rfl
  · exact (C5_change_handler ⟨[]⟩ (lit "change ab 9876543210") (lit "ab")
      (lit "9876543210") ⟨[], none, []⟩ (by decide)).2 rfl

theorem alnum_of_alpha {s : PyStr} (h : pyStrIsAlpha s = true) : pyStrIsAlnum s = true := by
  simp only [pyStrIsAlpha, Bool.and_eq_true, Bool.not_eq_true', List.all_eq_true] at h
  simp only [pyStrIsAlnum, Bool.and_eq_true, Bool.not_eq_true', List.all_eq_true]
  exact ⟨h.1, fun c hc => by simp [h.2 c hc]⟩

theorem alnum_of_digit {s : PyStr} (h : pyStrIsDigit s = true) : pyStrIsAlnum s = true := by
  simp only [pyStrIsDigit, Bool.and_eq_true, Bool.not_eq_true', List.all_eq_true] at h
  simp only [pyStrIsAlnum, Bool.and_eq_true, Bool.not_eq_true', List.all_eq_true]
  exact ⟨h.1, fun c hc => by simp [h.2 c hc]⟩

theorem not_alpha_of_digit {s : PyStr} (h : pyStrIsDigit s = true) : pyStrIsAlpha s = false := by
  simp only [pyStrIsDigit, Bool.and_eq_true, Bool.not_eq_true', List.all_eq_true] at h
  cases s with
  | nil => simp [List.isEmpty] at h
  | cons c t =>
    have hc : pyIsDigitChar c = true := h.2 c (by simp)
    have hna : pyIsAlphaChar c = false := by
      simp only [pyIsDigitChar, Bool.and_eq_true, decide_eq_true_eq] at hc
      simp only [pyIsAlphaChar, Bool.or_eq_false_iff, Bool.and_eq_false_iff,
        decide_eq_false_iff_not]
      omega
    simp [pyStrIsAlpha, hna]

theorem foldl_append_flatMap (f : Record → List PyStr) :
    ∀ (l : List Record) (init : List PyStr),
      l.foldl (fun acc r => acc ++ f r) init = init ++ l.flatMap f := by
  intro l
  induction l with
  | nil => intro init; simp
  | cons r t ih =>
    intro init
    simp only [List.foldl_cons, ih, List.flatMap_cons, List.append_assoc]

theorem mem_hits_alpha {term : PyStr} (ht : pyStrIsAlpha term = true) (r : Record) (nm : PyStr) :
    nm ∈ searchRecordHits term r ↔ (r.name = nm ∧ ciSearch term r.name = true) := by
  unfold searchRecordHits
  rw [if_pos ht]
  by_cases hc : ciSearch term r.name = true
  · simp [hc, eq_comm]
  · simp only [Bool.not_eq_true] at hc
    simp [hc]

theorem mem_hits_digit {term : PyStr} (ht : pyStrIsDigit term = true) (r : Record) (nm : PyStr) :
    nm ∈ searchRecordHits term r ↔
      (r.name = nm ∧ ∃ p ∈ r.phones, containsSub term p = true) := by
  unfold searchRecordHits
  rw [if_neg (by simp [not_alpha_of_digit ht]), if_pos ht]
  simp only [List.mem_map, List.mem_filter]
  constructor
  · rintro ⟨p, ⟨hp, hsub⟩, heq⟩
    exact ⟨heq, p, hp, hsub⟩
  · rintro ⟨heq, p, hp, hsub⟩
    exact ⟨p, ⟨hp, hsub⟩, heq⟩

/-- Claim C4 counterexample: `search_handler` does not return a display
string - on a match it returns the Python list of names. -/
theorem C4_counterexample :
    search_handler bookOne (lit "search ab") = .ok (.strList [lit "ab"]) ∧
    ¬ ∃ s, search_handler bookOne (lit "search ab") = .ok (.str s) := by
  constructor
  · rfl
  · rintro ⟨s, h⟩
    rw [show search_handler bookOne (lit "search ab") = .ok (.strList [lit "ab"]) from rfl] at h
    simp at h

/-- Claim C4 as amended: on a two-word command with an alphanumeric term,
`search_handler` returns a Python list (not a string) holding exactly the
names of the matching contacts - case-insensitive name matches for an
alphabetic term, phone-substring matches for a numeric term. -/
theorem C4_search_returns_list (book : AddressBook) (command term : PyStr)
    (hsplit : pySplit command = [lit "search", term]) :
    (pyStrIsAlpha term = true →
      ∃ l, search_handler book command = .ok (.strList l) ∧
        ∀ nm, nm ∈ l ↔ ∃ r ∈ book.values, r.name = nm ∧ ciSearch term r.name = true) ∧
    (pyStrIsDigit term = true →
      ∃ l, search_handler book command = .ok (.strList l) ∧
        ∀ nm, nm ∈ l ↔ ∃ r ∈ book.values, r.name = nm ∧
          ∃ p ∈ r.phones, containsSub term p = true) := by
  constructor
  · intro ht
    refine ⟨book.values.flatMap (searchRecordHits term), ?_, ?_⟩
    · unfold search_handler search_body
      rw [hsplit]
      dsimp only
      rw [if_neg (by simp [alnum_of_alpha ht])]
      rw [foldl_append_flatMap]
      rfl
    · intro nm
      rw [List.mem_flatMap]
      constructor
      · rintro ⟨r, hr, hmem⟩
        obtain ⟨heq, hci⟩ := (mem_hits_alpha ht r nm).mp hmem
        exact ⟨r, hr, heq, hci⟩
      · rintro ⟨r, hr, heq, hci⟩
        exact ⟨r, hr, (mem_hits_alpha ht r nm).mpr ⟨heq, hci⟩⟩
  · intro ht
    refine ⟨book.values.flatMap (searchRecordHits term), ?_, ?_⟩
    · unfold search_handler search_body
      rw [hsplit]
      dsimp only
      rw [if_neg (by simp [alnum_of_digit ht])]
      rw [foldl_append_flatMap]
      rfl
    · intro nm
      rw [List.mem_flatMap]
      constructor
      · rintro ⟨r, hr, hmem⟩
        obtain ⟨heq, hp⟩ := (mem_hits_digit ht r nm).mp hmem
        exact ⟨r, hr, heq, hp⟩
      · rintro ⟨r, hr, heq, hp⟩
        exact ⟨r, hr, (mem_hits_digit ht r nm).mpr ⟨heq, hp⟩⟩

theorem C4_witness :
    ∃ l, search_handler bookOne (lit "search ab") = .ok (.strList l) ∧
      ∀ nm, nm ∈ l ↔ ∃ r ∈ bookOne.values, r.name = nm ∧
        ciSearch (lit "ab") r.name = true :=
  (C4_search_returns_list bookOne (lit "search ab") (lit "ab") (by decide)).1 (by decide)

theorem Phone.init_ok_inv {p v : PyStr} (h : Phone.init p = .ok v) :
    v = p ∧ pyPhoneValid p = true := by
  unfold Phone.init at h
  split at h
  · exact absurd h (by simp)
  · rename_i hcond
    push_neg at hcond
    obtain ⟨h1, h2⟩ := hcond
    have hv : v = p := by
      have := h
      injection this
      simp [*]
    refine ⟨hv, ?_⟩
    simp only [pyPhoneValid, Bool.and_eq_true, decide_eq_true_eq]
    exact ⟨Bool.not_eq_false (pyStrIsDigit p) ▸ (by simpa using h1), by omega⟩

theorem Record.init_inv {name : PyStr} {b : Option PyStr} {r : Record}
    (h : Record.init name b = .ok r) : r.name = name ∧ r.phones = [] := by
  unfold Record.init at h
  unfold Name.init at h
  split at h
  · rw [except_bind_ok] at h
    cases b with
    | none =>
      simp only [pure, Except.pure] at h
      injection h with h2
      rw [← h2]
      exact ⟨rfl, rfl⟩
    | some bb =>
      dsimp only at h
      by_cases hbe : bb.isEmpty = true
      · rw [if_pos hbe] at h
        simp only [pure, Except.pure] at h
        injection h with h2
        rw [← h2]
        exact ⟨rfl, rfl⟩
      · rw [if_neg hbe] at h
        unfold Birthday.init at h
        split at h
        · rw [except_bind_ok] at h
          simp only [pure, Except.pure] at h
          injection h with h2
          rw [← h2]
          exact ⟨rfl, rfl⟩
        · rw [except_bind_error] at h
          exact absurd h (by simp)
  · rw [except_bind_error] at h
    exact absurd h (by simp)

theorem Record.add_phone_inv {r r2 : Record} {p : PyStr}
    (h : Record.add_phone r p = .ok r2) :
    r2.name = r.name ∧ r2.phones = r.phones ++ [p] ∧ pyPhoneValid p = true := by
  unfold Record.add_phone at h
  cases hp : Phone.init p with
  | error e =>
    rw [hp, except_bind_error] at h
    exact absurd h (by simp)
  | ok v =>
    rw [hp, except_bind_ok] at h
    obtain ⟨hv, hval⟩ := Phone.init_ok_inv hp
    subst hv
    simp only [pure, Except.pure] at h
    injection h with h2
    rw [← h2]
    exact ⟨rfl, rfl, hval⟩

theorem foldlM_add_phone_inv :
    ∀ (ps : List PyStr) (r0 r : Record),
      List.foldlM Record.add_phone r0 ps = .ok r →
      r.name = r0.name ∧ (r0.phonesValid = true → r.phonesValid = true) := by
  intro ps
  induction ps with
  | nil =>
    intro r0 r h
    simp only [List.foldlM, pure, Except.pure] at h
    injection h with h2
    rw [← h2]
    exact ⟨rfl, id⟩
  | cons p t ih =>
    intro r0 r h
    simp only [List.foldlM] at h
    cases hp : Record.add_phone r0 p with
    | error e =>
      rw [hp, except_bind_error] at h
      exact absurd h (by simp)
    | ok r1 =>
      rw [hp, except_bind_ok] at h
      obtain ⟨hn, hph, hval⟩ := Record.add_phone_inv hp
      obtain ⟨ihn, ihv⟩ := ih r1 r h
      refine ⟨ihn.trans hn, fun h0 => ihv ?_⟩
      simp only [Record.phonesValid, hph, List.all_append, Bool.and_eq_true]
      simp only [Record.phonesValid] at h0
      simp [h0, hval]

theorem buildRecord_inv {name : PyStr} {b : Option PyStr} {ps : List PyStr} {r : Record}
    (h : buildRecord name b ps = .ok r) : r.name = name ∧ r.phonesValid = true := by
  unfold buildRecord at h
  cases hi : Record.init name b with
  | error e =>
    rw [hi, except_bind_error] at h
    exact absurd h (by simp)
  | ok r0 =>
    rw [hi, except_bind_ok] at h
    obtain ⟨hn0, hp0⟩ := Record.init_inv hi
    obtain ⟨hn, hv⟩ := foldlM_add_phone_inv ps r0 r h
    exact ⟨hn.trans hn0, hv (by simp [Record.phonesValid, hp0])⟩

theorem AddressBook.add_record_inv {book : AddressBook} {r : Record} {book2 : AddressBook}
    (hInv : book.Inv = true) (hr : r.phonesValid = true)
    (h : book.add_record r = .ok book2) : book2.Inv = true := by
  unfold AddressBook.add_record at h
  split at h
  · injection h with h2
    rw [← h2]
    simp only [AddressBook.Inv, List.all_append]
    simp only [AddressBook.Inv] at hInv
    simp [hInv, hr]
  · exact absurd h (by simp)

theorem AddressBook.delete_inv {book : AddressBook} {name : PyStr}
    (hInv : book.Inv = true) : (book.delete name).Inv = true := by
  simp only [AddressBook.Inv, List.all_eq_true] at hInv ⊢
  intro kv hkv
  exact hInv kv ((List.eraseP_sublist book.data).subset hkv)

theorem AddressBook.find_inv {book : AddressBook} {name : PyStr} {r : Record}
    (hInv : book.Inv = true) (h : book.find name = some r) :
    r.name = name ∧ r.phonesValid = true := by
  unfold AddressBook.find at h
  cases hf : book.data.find? (fun kv => kv.1 == name) with
  | none => rw [hf] at h; simp at h
  | some kv =>
    rw [hf] at h
    simp only [Option.map] at h
    injection h with h2
    have hmem := List.mem_of_find?_eq_some hf
    have hpred := List.find?_some hf
    simp only [beq_iff_eq] at hpred
    simp only [AddressBook.Inv, List.all_eq_true] at hInv
    have hkv := hInv kv hmem
    simp only [Bool.and_eq_true, beq_iff_eq] at hkv
    rw [← h2]
    exact ⟨hkv.1.symm.trans hpred, hkv.2⟩

theorem AddressBook.setRecord_inv {book : AddressBook} {name : PyStr} {r2 : Record}
    (hInv : book.Inv = true) (hn : r2.name = name) (hv : r2.phonesValid = true) :
    (book.setRecord name r2).Inv = true := by
  simp only [AddressBook.Inv, List.all_eq_true] at hInv ⊢
  intro kv hkv
  simp only [AddressBook.setRecord, List.mem_map] at hkv
  obtain ⟨kv0, hkv0, heq⟩ := hkv
  by_cases hk : (kv0.1 == name) = true
  · rw [if_pos hk] at heq
    rw [← heq]
    simp only [Bool.and_eq_true, beq_iff_eq]
    simp only [beq_iff_eq] at hk
    exact ⟨hk.trans hn.symm, hv⟩
  · rw [if_neg hk] at heq
    rw [← heq]
    exact hInv kv0 hkv0

theorem replaceFirst_mem :
    ∀ {ps : List PyStr} {old new q : PyStr} {ps2 : List PyStr},
      replaceFirst ps old new = some ps2 → q ∈ ps2 → q ∈ ps ∨ q = new := by
  intro ps
  induction ps with
  | nil => intro old new q ps2 h; simp [replaceFirst] at h
  | cons p t ih =>
    intro old new q ps2 h hq
    unfold replaceFirst at h
    by_cases hp : (p == old) = true
    · rw [if_pos hp] at h
      injection h with h2
      rw [← h2] at hq
      rcases List.mem_cons.mp hq with h3 | h3
      · right; exact h3
      · left; exact List.mem_cons_of_mem p h3
    · rw [if_neg hp] at h
      cases hrest : replaceFirst t old new with
      | none => rw [hrest] at h; simp at h
      | some ps2' =>
        rw [hrest] at h
        simp only [Option.map] at h
        injection h with h2
        rw [← h2] at hq
        rcases List.mem_cons.mp hq with h3 | h3
        · left; rw [h3]; exact List.mem_cons_self p t
        · rcases ih hrest h3 with h4 | h4
          · left; exact List.mem_cons_of_mem p h4
          · right; exact h4

theorem Record.remove_phone_inv {r r2 : Record} {p : PyStr}
    (h : Record.remove_phone r p = .ok r2) :
    r2.name = r.name ∧ (r.phonesValid = true → r2.phonesValid = true) := by
  unfold Record.remove_phone at h
  split at h
  · exact absurd h (by simp)
  · rename_i q rest hfilt
    injection h with h2
    rw [← h2]
    refine ⟨rfl, fun h0 => ?_⟩
    simp only [Record.phonesValid, List.all_eq_true] at h0 ⊢
    intro x hx
    exact h0 x ((List.erase_sublist q r.phones).subset hx)

theorem Record.edit_phone_inv {r r2 : Record} {old new : PyStr}
    (h : Record.edit_phone r old new = .ok r2) :
    r2.name = r.name ∧ (r.phonesValid = true → r2.phonesValid = true) := by
  unfold Record.edit_phone at h
  split at h
  · exact absurd h (by simp)
  · rename_i hcond
    push_neg at hcond
    obtain ⟨h1, h2⟩ := hcond
    have hnew : pyPhoneValid new = true := by
      simp only [pyPhoneValid, Bool.and_eq_true, decide_eq_true_eq]
      exact ⟨Bool.not_eq_false (pyStrIsDigit new) ▸ (by simpa using h1), by omega⟩
    cases hrep : replaceFirst r.phones old new with
    | none => rw [hrep] at h; exact absurd h (by simp)
    | some ps2 =>
      rw [hrep] at h
      injection h with h3
      rw [← h3]
      refine ⟨rfl, fun h0 => ?_⟩
      simp only [Record.phonesValid, List.all_eq_true] at h0 ⊢
      intro x hx
      rcases replaceFirst_mem hrep hx with h4 | h4
      · exact h0 x h4
      · rw [h4]; exact hnew

/-- Claim C9: every listed operation preserves the invariant that each stored
record is keyed by its own name value and every stored phone is an all-digit
string of length at least 10. -/
theorem C9_operations_preserve_invariant (book : AddressBook) (op : BookOp)
    (book2 : AddressBook) (hInv : book.Inv = true)
    (h : applyOp book op = .ok book2) : book2.Inv = true := by
  cases op with
  | addRecord name birthday phones =>
    simp only [applyOp] at h
    cases hb : buildRecord name birthday phones with
    | error e => rw [hb, except_bind_error] at h; exact absurd h (by simp)
    | ok r =>
      rw [hb, except_bind_ok] at h
      obtain ⟨hn, hv⟩ := buildRecord_inv hb
      exact AddressBook.add_record_inv hInv hv h
  | deleteRecord name =>
    simp only [applyOp] at h
    injection h with h2
    rw [← h2]
    exact AddressBook.delete_inv hInv
  | addPhone name phone =>
    simp only [applyOp] at h
    cases hf : book.find name with
    | none =>
      rw [hf] at h
      injection h with h2
      rw [← h2]
      exact hInv
    | some r =>
      rw [hf] at h
      dsimp only at h
      obtain ⟨hrn, hrv⟩ := AddressBook.find_inv hInv hf
      cases hp : Record.add_phone r phone with
      | error e => rw [hp, except_bind_error] at h; exact absurd h (by simp)
      | ok r2 =>
        rw [hp, except_bind_ok] at h
        obtain ⟨hn2, hph2, hval⟩ := Record.add_phone_inv hp
        simp only [pure, Except.pure] at h
        injection h with h2
        rw [← h2]
        refine AddressBook.setRecord_inv hInv (hn2.trans hrn) ?_
        simp only [Record.phonesValid, hph2, List.all_append, Bool.and_eq_true]
        simp only [Record.phonesValid] at hrv
        simp [hrv, hval]
  | removePhone name phone =>
    simp only [applyOp] at h
    cases hf : book.find name with
    | none =>
      rw [hf] at h
      injection h with h2
      rw [← h2]
      exact hInv
    | some r =>
      rw [hf] at h
      dsimp only at h
      obtain ⟨hrn, hrv⟩ := AddressBook.find_inv hInv hf
      cases hp : Record.remove_phone r phone with
      | error e => rw [hp, except_bind_error] at h; exact absurd h (by simp)
      | ok r2 =>
        rw [hp, except_bind_ok] at h
        obtain ⟨hn2, hv2⟩ := Record.remove_phone_inv hp
        simp only [pure, Except.pure] at h
        injection h with h2
        rw [← h2]
        exact AddressBook.setRecord_inv hInv (hn2.trans hrn) (hv2 hrv)
  | editPhone name old new =>
    simp only [applyOp] at h
    cases hf : book.find name with
    | none =>
      rw [hf] at h
      injection h with h2
      rw [← h2]
      exact hInv
    | some r =>
      rw [hf] at h
      dsimp only at h
      obtain ⟨hrn, hrv⟩ := AddressBook.find_inv hInv hf
      cases hp : Record.edit_phone r old new with
      | error e => rw [hp, except_bind_error] at h; exact absurd h (by simp)
      | ok r2 =>
        rw [hp, except_bind_ok] at h
        obtain ⟨hn2, hv2⟩ := Record.edit_phone_inv hp
        simp only [pure, Except.pure] at h
        injection h with h2
        rw [← h2]
        exact AddressBook.setRecord_inv hInv (hn2.trans hrn) (hv2 hrv)

theorem C9_witness :
    AddressBook.Inv ⟨[(lit "ab", ⟨lit "ab", none, [lit "1234567890"]⟩)]⟩ = true :=
  C9_operations_preserve_invariant ⟨[]⟩
    (.addRecord (lit "ab") none [lit "1234567890"])
    ⟨[(lit "ab", ⟨lit "ab", none, [lit "1234567890"]⟩)]⟩ (by decide) rfl
